import Mathlib

/-!
Shallow embedding of `src/flowblade-trunk/Flowblade/projectdata.py`
(Flowblade movie editor project data module).

The module holds project state for a nonlinear video editor: a `Project`
aggregate owning bins, sequences, a media-file table and a media log, a
`MediaFile` record, a `Bin` record, and a `ThumbnailThread` worker that calls
into the external MLT framework.  External collaborators (GTK, MLT, the
`appconsts`/`editorpersistance`/`utils`/`sequence` modules) are modelled as an
explicit environment record `Env` of uninterpreted data and functions; the
logic of `projectdata.py` itself is translated directly.
-/

namespace Flowblade

/-- Media-type tags from the external `appconsts` module.  Only the
`audio` and `patternProducer` tags are branched on in `projectdata.py`;
the other tags stand for the remaining constants. -/
inductive MediaType where
  | video
  | audio
  | image
  | imageSequence
  | patternProducer
deriving DecidableEq

/-- Environment of external collaborators: configured folders
(`editorpersistance.prefs`, `respaths`), the `md5` hex digest, MLT producer
probing (`mlt.Producer(...).is_valid()` / `.get_length()`), the media-type
classifier `sequence.get_media_type`, the graphics-file-extension test
`utils.file_extension_is_graphics_file` and the graphics defaults
`editorpersistance.get_graphics_default_in_out_length`. -/
structure Env where
  thumbnail_folder : String
  render_folder : String
  image_path : String
  md5Hex : String → String
  producer_is_valid : String → Bool
  producer_get_length : String → Int
  get_media_type : String → MediaType
  file_extension_is_graphics_file : String → Bool
  graphics_default_in_fr : Int
  graphics_default_out_fr : Int
  graphics_default_length : Int

/-- Index of the last occurrence of `c` in `cs` (Python `str.rfind`,
with `none` for "not found"). -/
def rfindIdx (cs : List Char) (c : Char) : Option Nat :=
  match cs with
  | [] => none
  | a :: rest =>
    match rfindIdx rest c with
    | some i => some (i + 1)
    | none => if a = c then some 0 else none

/-- Python `str.rfind`: index of the last occurrence, `-1` when absent. -/
def rfind (cs : List Char) (c : Char) : Int :=
  match rfindIdx cs c with
  | some i => (i : Int)
  | none => -1

/-- Embeds `os.path.split(p)[1]` for POSIX paths: the part after the last slash. -/
def pathSplitTail (p : String) : String :=
  let cs := p.toList
  match rfindIdx cs '/' with
  | some i => ⟨cs.drop (i + 1)⟩
  | none => p

/-- Embeds `os.path.splitext` for POSIX paths (CPython `genericpath._splitext`):
split at the last dot, provided some character strictly between the last
slash and that dot is not itself a dot (leading dots of the basename never
start an extension). -/
def splitext (p : String) : String × String :=
  let cs := p.toList
  let sepIndex : Int := rfind cs '/'
  let dotIndex : Int := rfind cs '.'
  if sepIndex < dotIndex ∧
      (List.range cs.length).any
        (fun j => decide (sepIndex < (j : Int) ∧ (j : Int) < dotIndex ∧ cs.getD j '.' ≠ '.')) then
    (⟨cs.take dotIndex.toNat⟩, ⟨cs.drop dotIndex.toNat⟩)
  else
    (p, "")

/-- Embeds `MediaFile`: one imported asset.  Python initialises `path` to the given
file path and `second_file_path` to `None`; the proxy setters swap the two
fields, so both are modelled as `Option String`.  The GTK pixbuf `icon`
field (set by `create_icon`, display only) is not modelled. -/
structure MediaFile where
  id : Nat
  path : Option String
  name : String
  type : MediaType
  length : Int
  icon_path : String
  mark_in : Int
  mark_out : Int
  has_proxy_file : Bool
  is_proxy_file : Bool
  second_file_path : Option String
deriving DecidableEq

/-- Embeds `MediaFile.__init__`: store the constructor arguments, set marks to `-1`,
then override `mark_in`/`mark_out`/`length` with the configured graphics
defaults when the extension of `name` (per `os.path.splitext`) is a
graphics-file extension. -/
def MediaFile.make (env : Env) (id : Nat) (file_path : String) (name : String)
    (media_type : MediaType) (length : Int) (icon_path : String) : MediaFile :=
  let base : MediaFile :=
    { id := id, path := some file_path, name := name, type := media_type,
      length := length, icon_path := icon_path, mark_in := -1, mark_out := -1,
      has_proxy_file := false, is_proxy_file := false, second_file_path := none }
  let ext := (splitext name).2
  if env.file_extension_is_graphics_file ext then
    { base with mark_in := env.graphics_default_in_fr,
                mark_out := env.graphics_default_out_fr,
                length := env.graphics_default_length }
  else
    base

/-- Embeds `MediaFile.create_proxy_path`: md5 of `self.path + str(w) + str(h)` under
`render_folder/proxies` with the given extension.  `none` models the Python
`TypeError` raised when `self.path` is `None`. -/
def MediaFile.create_proxy_path (env : Env) (mf : MediaFile)
    (proxy_width proxy_height : Nat) (file_extesion : String) : Option String :=
  mf.path.map (fun p =>
    env.render_folder ++ "/proxies/" ++
      env.md5Hex (p ++ toString proxy_width ++ toString proxy_height) ++ "." ++ file_extesion)

/-- Embeds `MediaFile.add_proxy_file`. -/
def MediaFile.add_proxy_file (mf : MediaFile) (proxy_path : String) : MediaFile :=
  { mf with has_proxy_file := true, second_file_path := some proxy_path }

/-- Embeds `MediaFile.set_as_proxy_media_file`: swap `path` and `second_file_path`,
set `is_proxy_file` to `True`. -/
def MediaFile.set_as_proxy_media_file (mf : MediaFile) : MediaFile :=
  { mf with path := mf.second_file_path, second_file_path := mf.path,
            is_proxy_file := true }

/-- Embeds `MediaFile.set_as_original_media_file`: swap `path` and
`second_file_path`, set `is_proxy_file` to `False`. -/
def MediaFile.set_as_original_media_file (mf : MediaFile) : MediaFile :=
  { mf with path := mf.second_file_path, second_file_path := mf.path,
            is_proxy_file := false }

/-- Embeds `ProducerNotValidError(value)`. -/
structure ProducerNotValidError where
  value : String
deriving DecidableEq

/-- The thumbnail file path computed inside `ThumbnailThread.write_image`:
`thumbnail_folder + "/" + md5(file_path).hexdigest() + ".png"`. -/
def thumbnailPath (env : Env) (file_path : String) : String :=
  env.thumbnail_folder ++ "/" ++ env.md5Hex file_path ++ ".png"

/-- Embeds `ThumbnailThread.write_image`: build the thumbnail path, construct the
producer, raise `ProducerNotValidError` when `producer.is_valid()` is false,
otherwise write the middle frame (external side effect) and return the pair
`(thumbnail_path, length)`. -/
def ThumbnailThread.write_image (env : Env) (file_path : String) :
    Except ProducerNotValidError (String × Int) :=
  let tp := thumbnailPath env file_path
  if env.producer_is_valid file_path = false then
    Except.error ⟨file_path⟩
  else
    Except.ok (tp, env.producer_get_length file_path)

/-- Embeds `ThumbnailThread.get_file_length`: construct the producer and return
`producer.get_length()`; the producer is never checked for validity. -/
def ThumbnailThread.get_file_length (env : Env) (file_path : String) :
    Except ProducerNotValidError Int :=
  Except.ok (env.producer_get_length file_path)

/-- Embeds `Bin`: a named ordered list of media-file ids. -/
structure Bin where
  name : String
  file_ids : List Nat
deriving DecidableEq

/-- Modelled from the spec: a `Sequence` ("an editable timeline composed of
tracks, defined outside this module's scope") comes from the `sequence`
module, which is missing from this source tree; only its identity as an
owned element of `Project.sequences` matters here. -/
structure Sequence where
  name : String
deriving DecidableEq

/-- Modelled from the spec: a media-log event comes from the `medialog`
module, which is missing from this source tree; per the spec's "filtered
queries over a log of media log events by a starred/not-starred predicate",
only the boolean `starred` flag is read here, and `data` stands for the
rest of the event. -/
structure MediaLogEvent where
  starred : Bool
  data : Nat
deriving DecidableEq

/-- Embeds `Project`: the root aggregate.  The Python dict `media_files` is
modelled as an insertion-ordered association list; the Python references
`c_bin`/`c_seq` (aliases into `bins`/`sequences`) are modelled as indices.
GUI/serialization-only fields (`name`, `profile`, `last_save_path`,
`events`, `proxy_data`, `SAVEFILE_VERSION`) are not modelled. -/
structure Project where
  bins : List Bin
  media_files : List (Nat × MediaFile)
  sequences : List Sequence
  next_media_file_id : Nat
  next_bin_number : Nat
  next_seq_number : Nat
  media_log : List MediaLogEvent
  c_seq : Nat
  c_bin : Nat
deriving DecidableEq

/-- Python dict assignment `d[k] = v` on the association-list model:
overwrite in place when the key is present, append otherwise. -/
def dictInsert (m : List (Nat × MediaFile)) (k : Nat) (v : MediaFile) :
    List (Nat × MediaFile) :=
  if m.any (fun kv => kv.1 = k) then
    m.map (fun kv => if kv.1 = k then (k, v) else kv)
  else
    m ++ [(k, v)]

/-- The bin currently referenced by `self.c_bin` (index model; the default
is never reached while the current-bin index is valid). -/
def Project.currentBin (P : Project) : Bin :=
  P.bins.getD P.c_bin { name := "name", file_ids := [] }

/-- Embeds `Project._add_media_object`: store the object under its id in
`media_files`, bump `next_media_file_id`, and append the id to the current
bin's `file_ids`. -/
def Project.addMediaObject (P : Project) (media_object : MediaFile) : Project :=
  { P with
    media_files := dictInsert P.media_files media_object.id media_object,
    next_media_file_id := P.next_media_file_id + 1,
    bins := P.bins.set P.c_bin
      { P.currentBin with file_ids := P.currentBin.file_ids ++ [media_object.id] } }

/-- Embeds `Project.add_media_file`: split the path, classify the media type, get
icon path and length from the thumbnail thread (audio files get the stock
audio icon and only a length probe), build the `MediaFile` with
`next_media_file_id`, and add it.  A `ProducerNotValidError` from the
thumbnail thread propagates before any state is mutated. -/
def Project.add_media_file (env : Env) (P : Project) (file_path : String) :
    Except ProducerNotValidError (Project × MediaFile) :=
  let file_name := pathSplitTail file_path
  let media_type := env.get_media_type file_path
  let probed : Except ProducerNotValidError (String × Int) :=
    if media_type = MediaType.audio then
      match ThumbnailThread.get_file_length env file_path with
      | Except.ok l => Except.ok (env.image_path ++ "audio_file.png", l)
      | Except.error e => Except.error e
    else
      ThumbnailThread.write_image env file_path
  match probed with
  | Except.ok (icon_path, length) =>
    let media_object := MediaFile.make env P.next_media_file_id file_path
        file_name media_type length icon_path
    Except.ok (P.addMediaObject media_object, media_object)
  | Except.error e => Except.error e

/-- Modelled from the spec: `Project.add_pattern_producer_media_object`
itself just calls `_add_media_object`, but the caller-side construction of
the pattern-producer object lives in the `patternproducer` module, which is
missing from this source tree; per the spec's "media-file table keyed by
monotonically increasing integer id", the object is constructed carrying the
project's `next_media_file_id`, modelled here by overriding the id field. -/
def Project.add_pattern_producer_media_object (P : Project) (media_object : MediaFile) :
    Project :=
  P.addMediaObject { media_object with id := P.next_media_file_id }

/-- Loop body of `Project.media_file_exists`: skip pattern producers,
return `True` on the first media file whose `path` equals `file_path`. -/
def mediaFileExistsLoop (items : List (Nat × MediaFile)) (file_path : String) : Bool :=
  match items with
  | [] => false
  | (_, media_file) :: rest =>
    if media_file.type = MediaType.patternProducer then
      mediaFileExistsLoop rest file_path
    else if media_file.path = some file_path then
      true
    else
      mediaFileExistsLoop rest file_path

/-- Embeds `Project.media_file_exists`. -/
def Project.media_file_exists (P : Project) (file_path : String) : Bool :=
  mediaFileExistsLoop P.media_files file_path

/-- Loop body of `Project.get_media_file_for_path`: skip pattern producers,
return the first media file whose `path` equals `file_path`, else `None`. -/
def getMediaFileForPathLoop (items : List (Nat × MediaFile)) (file_path : String) :
    Option MediaFile :=
  match items with
  | [] => none
  | (_, media_file) :: rest =>
    if media_file.type = MediaType.patternProducer then
      getMediaFileForPathLoop rest file_path
    else if media_file.path = some file_path then
      some media_file
    else
      getMediaFileForPathLoop rest file_path

/-- Embeds `Project.get_media_file_for_path`. -/
def Project.get_media_file_for_path (P : Project) (file_path : String) :
    Option MediaFile :=
  getMediaFileForPathLoop P.media_files file_path

/-- Python `list.pop(i)` for a nonnegative index: remove and discard the
element at position `i`, `none` models the `IndexError` on an out-of-range
index (the list is unchanged when the error is raised). -/
def popIdx (l : List Nat) (i : Nat) : Option (List Nat) :=
  if i < l.length then some (l.eraseIdx i) else none

/-- The state written back when the current bin's `file_ids` is mutated
(index model of the Python in-place mutation through the `c_bin` alias). -/
def Project.withCurrentBinFiles (P : Project) (l : List Nat) : Project :=
  { P with bins := P.bins.set P.c_bin { P.currentBin with file_ids := l } }

/-- Embeds `Project.delete_media_file_from_current_bin`:
`self.c_bin.file_ids.pop(media_file.id)` — a positional pop at index
`media_file.id`, `none` modelling the propagated `IndexError`. -/
def Project.delete_media_file_from_current_bin (P : Project) (media_file : MediaFile) :
    Option Project :=
  match popIdx P.currentBin.file_ids media_file.id with
  | some l => some (P.withCurrentBinFiles l)
  | none => none

/-- Embeds `Project.add_unnamed_bin`: append `Bin("bin_" + str(next_bin_number))`
and bump the counter. -/
def Project.add_unnamed_bin (P : Project) : Project :=
  { P with
    bins := P.bins ++ [{ name := "bin_" ++ toString P.next_bin_number, file_ids := [] }],
    next_bin_number := P.next_bin_number + 1 }

/-- Embeds `Project.add_named_sequence`: construct the external sequence (its
default tracks are outside this module), append it, bump the counter. -/
def Project.add_named_sequence (P : Project) (name : String) : Project :=
  { P with
    sequences := P.sequences ++ [{ name := name }],
    next_seq_number := P.next_seq_number + 1 }

/-- Embeds `Project.add_unnamed_sequence`: `add_named_sequence` with the default
name `"sequence_" + str(next_seq_number)`. -/
def Project.add_unnamed_sequence (P : Project) : Project :=
  P.add_named_sequence ("sequence_" ++ toString P.next_seq_number)

/-- Embeds `Project._media_log_included_by_starred`. -/
def mediaLogIncludedByStarred (starred incl_starred incl_not_starred : Bool) : Bool :=
  if starred = true ∧ incl_starred = true then true
  else if starred = false ∧ incl_not_starred = true then true
  else false

/-- Embeds `Project.get_filtered_media_log_events`: keep, in order, the events
admitted by `_media_log_included_by_starred`. -/
def Project.get_filtered_media_log_events (P : Project)
    (incl_starred incl_not_starred : Bool) : List MediaLogEvent :=
  P.media_log.filter
    (fun e => mediaLogIncludedByStarred e.starred incl_starred incl_not_starred)

/-- One `list.remove(e)` call: delete the first occurrence of `e`, `none`
models the `ValueError` when `e` is absent. -/
def removeFirst {α : Type} [DecidableEq α] (l : List α) (e : α) : Option (List α) :=
  if e ∈ l then some (l.erase e) else none

/-- The loop of `Project.delete_media_log_events`: remove the events of
`del` one at a time; on a `ValueError` the loop aborts, leaving the removals
already performed in place (second component `false`). -/
def deleteEventsRun {α : Type} [DecidableEq α] (log del : List α) : List α × Bool :=
  match del with
  | [] => (log, true)
  | e :: rest =>
    match removeFirst log e with
    | some log2 => deleteEventsRun log2 rest
    | none => (log, false)

/-- Embeds `Project.delete_media_log_events`: run the removal loop on
`media_log`; the boolean records whether it completed without a
`ValueError`. -/
def Project.delete_media_log_events (P : Project) (delete_events : List MediaLogEvent) :
    Project × Bool :=
  let r := deleteEventsRun P.media_log delete_events
  ({ P with media_log := r.1 }, r.2)

/-- Embeds `Project.__init__` (state fields only): empty collections, counters at
their initial values, then `add_unnamed_sequence` with `c_seq` set to the
first sequence and `add_unnamed_bin` with `c_bin` set to the first bin.
The thumbnail-thread start touches no `Project` state. -/
def Project.init : Project :=
  let P0 : Project :=
    { bins := [], media_files := [], sequences := [], next_media_file_id := 0,
      next_bin_number := 1, next_seq_number := 1, media_log := [],
      c_seq := 0, c_bin := 0 }
  let P1 := P0.add_unnamed_sequence
  let P2 := { P1 with c_seq := 0 }
  let P3 := P2.add_unnamed_bin
  { P3 with c_bin := 0 }

/-- The `Project` operations named by the spec's invariants, as a trace
alphabet. -/
inductive Op where
  | addMediaFile (file_path : String)
  | addPatternProducer (media_object : MediaFile)
  | addUnnamedBin
  | addUnnamedSequence
  | addNamedSequence (name : String)
  | deleteMediaFileFromCurrentBin (media_file : MediaFile)
  | deleteMediaLogEvents (delete_events : List MediaLogEvent)

/-- One operation applied to the project state.  An operation that raises
(`ProducerNotValidError`, `IndexError`) leaves the state as it was at the
point of the raise. -/
def step (env : Env) (P : Project) (op : Op) : Project :=
  match op with
  | Op.addMediaFile fp =>
    match Project.add_media_file env P fp with
    | Except.ok r => r.1
    | Except.error _ => P
  | Op.addPatternProducer mo => P.add_pattern_producer_media_object mo
  | Op.addUnnamedBin => P.add_unnamed_bin
  | Op.addUnnamedSequence => P.add_unnamed_sequence
  | Op.addNamedSequence n => P.add_named_sequence n
  | Op.deleteMediaFileFromCurrentBin mf =>
    match P.delete_media_file_from_current_bin mf with
    | some P2 => P2
    | none => P
  | Op.deleteMediaLogEvents del => (P.delete_media_log_events del).1

/-- The project state after running a trace of operations from a freshly
constructed project. -/
def runOps (env : Env) (ops : List Op) : Project :=
  ops.foldl (step env) Project.init

/-- Concrete environment in which every producer is reported invalid by the
media framework. -/
def envBad : Env :=
  { thumbnail_folder := "/cache/thumbnails", render_folder := "/cache/render",
    image_path := "/res/img/", md5Hex := fun s => s,
    producer_is_valid := fun _ => false, producer_get_length := fun _ => 100,
    get_media_type := fun _ => MediaType.audio,
    file_extension_is_graphics_file := fun _ => false,
    graphics_default_in_fr := 0, graphics_default_out_fr := 0,
    graphics_default_length := 0 }

/-- Concrete environment in which every producer is valid and `.png` is the
only graphics-file extension. -/
def envGood : Env :=
  { thumbnail_folder := "/cache/thumbnails", render_folder := "/cache/render",
    image_path := "/res/img/", md5Hex := fun s => s,
    producer_is_valid := fun _ => true, producer_get_length := fun _ => 250,
    get_media_type := fun _ => MediaType.video,
    file_extension_is_graphics_file := fun e => e = ".png",
    graphics_default_in_fr := 25, graphics_default_out_fr := 174,
    graphics_default_length := 200 }

/-- A concrete media file in the original (non-proxy) state. -/
def mfOrig : MediaFile :=
  { id := 3, path := some "/media/b.mp4", name := "b.mp4", type := MediaType.video,
    length := 500, icon_path := "/cache/thumbnails/t.png", mark_in := -1, mark_out := -1,
    has_proxy_file := true, is_proxy_file := false,
    second_file_path := some "/cache/render/proxies/p.mp4" }

/-- The same concrete media file in the proxy state. -/
def mfProxy : MediaFile :=
  { mfOrig with path := some "/cache/render/proxies/p.mp4",
                second_file_path := some "/media/b.mp4", is_proxy_file := true }

/-- C2 (counterexample): with every producer invalid, `get_file_length` does
not raise `ProducerNotValidError` — it returns the invalid producer's
length — so the claim that both extraction methods raise exactly when the
producer is invalid is false for `get_file_length`. -/
theorem C2_counterexample :
    envBad.producer_is_valid "/media/song.mp3" = false ∧
    ThumbnailThread.get_file_length envBad "/media/song.mp3" = Except.ok 100 :=
  ⟨rfl, rfl⟩

/-- C2 (amended): `write_image` raises `ProducerNotValidError` (carrying the
file path) exactly when the framework reports the producer invalid, and
returns the thumbnail path and length otherwise; `get_file_length` never
raises, returning the producer's reported length even for an invalid
producer. -/
theorem C2_amended_write_image_raises_exactly_on_invalid (env : Env) (p : String) :
    (ThumbnailThread.write_image env p = Except.error ⟨p⟩ ↔
      env.producer_is_valid p = false) ∧
    (env.producer_is_valid p = true →
      ThumbnailThread.write_image env p =
        Except.ok (thumbnailPath env p, env.producer_get_length p)) ∧
    ThumbnailThread.get_file_length env p = Except.ok (env.producer_get_length p) := by
  refine ⟨?_, ?_, rfl⟩
  · unfold ThumbnailThread.write_image
    by_cases hv : env.producer_is_valid p = false
    · simp [hv]
    · simp [hv]
  · intro hv
    unfold ThumbnailThread.write_image
    simp [hv]

/-- C2 (witness for the amended theorem at a concrete input). -/
theorem C2_amended_witness :
    (ThumbnailThread.write_image envBad "/media/a.mov" = Except.error ⟨"/media/a.mov"⟩ ↔
      envBad.producer_is_valid "/media/a.mov" = false) ∧
    (envBad.producer_is_valid "/media/a.mov" = true →
      ThumbnailThread.write_image envBad "/media/a.mov" =
        Except.ok (thumbnailPath envBad "/media/a.mov", envBad.producer_get_length "/media/a.mov")) ∧
    ThumbnailThread.get_file_length envBad "/media/a.mov" =
      Except.ok (envBad.producer_get_length "/media/a.mov") :=
  C2_amended_write_image_raises_exactly_on_invalid envBad "/media/a.mov"

/-- C3: `set_as_proxy_media_file` makes `is_proxy_file` true and moves the
former `second_file_path` into `path` (and vice versa for
`set_as_original_media_file`), and each round trip starting from the
matching `is_proxy_file` state restores `path`, `second_file_path` and
`is_proxy_file` exactly. -/
theorem C3_proxy_swap_round_trip (mf : MediaFile) :
    (mf.set_as_proxy_media_file.is_proxy_file = true ∧
     mf.set_as_proxy_media_file.path = mf.second_file_path ∧
     mf.set_as_proxy_media_file.second_file_path = mf.path) ∧
    (mf.set_as_original_media_file.is_proxy_file = false ∧
     mf.set_as_original_media_file.path = mf.second_file_path ∧
     mf.set_as_original_media_file.second_file_path = mf.path) ∧
    (mf.is_proxy_file = false →
      mf.set_as_proxy_media_file.set_as_original_media_file = mf) ∧
    (mf.is_proxy_file = true →
      mf.set_as_original_media_file.set_as_proxy_media_file = mf) := by
  refine ⟨⟨rfl, rfl, rfl⟩, ⟨rfl, rfl, rfl⟩, ?_, ?_⟩
  · intro h
    cases mf
    simp_all [MediaFile.set_as_proxy_media_file, MediaFile.set_as_original_media_file]
  · intro h
    cases mf
    simp_all [MediaFile.set_as_proxy_media_file, MediaFile.set_as_original_media_file]

/-- C3 (witness): both round trips evaluated on concrete media files. -/
theorem C3_proxy_swap_round_trip_witness :
    mfOrig.set_as_proxy_media_file.set_as_original_media_file = mfOrig ∧
    mfProxy.set_as_original_media_file.set_as_proxy_media_file = mfProxy :=
  ⟨(C3_proxy_swap_round_trip mfOrig).2.2.1 rfl,
   (C3_proxy_swap_round_trip mfProxy).2.2.2 rfl⟩

/-- C10: when the extension of `name` is a graphics-file extension the
constructor discards the supplied length and installs the configured
graphics defaults for `length`, `mark_in` and `mark_out`; otherwise
`length` is the supplied value and both marks are `-1`. -/
theorem C10_graphics_defaults (env : Env) (id : Nat) (file_path name : String)
    (media_type : MediaType) (length : Int) (icon_path : String) :
    (env.file_extension_is_graphics_file (splitext name).2 = true →
      (MediaFile.make env id file_path name media_type length icon_path).length =
          env.graphics_default_length ∧
      (MediaFile.make env id file_path name media_type length icon_path).mark_in =
          env.graphics_default_in_fr ∧
      (MediaFile.make env id file_path name media_type length icon_path).mark_out =
          env.graphics_default_out_fr) ∧
    (env.file_extension_is_graphics_file (splitext name).2 = false →
      (MediaFile.make env id file_path name media_type length icon_path).length = length ∧
      (MediaFile.make env id file_path name media_type length icon_path).mark_in = -1 ∧
      (MediaFile.make env id file_path name media_type length icon_path).mark_out = -1) := by
  constructor
  · intro h
    unfold MediaFile.make
    simp [h]
  · intro h
    unfold MediaFile.make
    simp [h]

/-- C10 (witness): a graphics name `"pic.png"` gets the defaults (the
supplied length `999` is discarded) and a video name `"vid.mp4"` keeps the
supplied length with marks `-1`. -/
theorem C10_graphics_defaults_witness :
    ((MediaFile.make envGood 0 "/m/pic.png" "pic.png" MediaType.image 999 "i").length = 200 ∧
     (MediaFile.make envGood 0 "/m/pic.png" "pic.png" MediaType.image 999 "i").mark_in = 25 ∧
     (MediaFile.make envGood 0 "/m/pic.png" "pic.png" MediaType.image 999 "i").mark_out = 174) ∧
    ((MediaFile.make envGood 1 "/m/vid.mp4" "vid.mp4" MediaType.video 999 "i").length = 999 ∧
     (MediaFile.make envGood 1 "/m/vid.mp4" "vid.mp4" MediaType.video 999 "i").mark_in = -1 ∧
     (MediaFile.make envGood 1 "/m/vid.mp4" "vid.mp4" MediaType.video 999 "i").mark_out = -1) :=
  ⟨(C10_graphics_defaults envGood 0 "/m/pic.png" "pic.png" MediaType.image 999 "i").1
      (by decide),
   (C10_graphics_defaults envGood 1 "/m/vid.mp4" "vid.mp4" MediaType.video 999 "i").2
      (by decide)⟩

lemma included_true_true (s : Bool) : mediaLogIncludedByStarred s true true = true := by
  cases s <;> rfl

lemma included_false_false (s : Bool) : mediaLogIncludedByStarred s false false = false := by
  cases s <;> rfl

lemma included_true_false (s : Bool) : mediaLogIncludedByStarred s true false = s := by
  cases s <;> rfl

lemma included_false_true (s : Bool) : mediaLogIncludedByStarred s false true = !s := by
  cases s <;> rfl

lemma filtered_true_false (P : Project) :
    P.get_filtered_media_log_events true false = P.media_log.filter (fun e => e.starred) := by
  unfold Project.get_filtered_media_log_events
  exact List.filter_congr (fun e _ => included_true_false e.starred)

lemma filtered_false_true (P : Project) :
    P.get_filtered_media_log_events false true = P.media_log.filter (fun e => !e.starred) := by
  unfold Project.get_filtered_media_log_events
  exact List.filter_congr (fun e _ => included_false_true e.starred)

/-- C4: the starred and not-starred filters of the media log are disjoint,
together form a permutation of the whole log (each event exactly once, by
multiplicity), each preserves the original relative order, and the
all-inclusive and all-exclusive filters return the whole log and the empty
list. -/
theorem C4_filter_partitions_media_log (P : Project) :
    P.get_filtered_media_log_events true true = P.media_log ∧
    P.get_filtered_media_log_events false false = [] ∧
    (P.get_filtered_media_log_events true false).Disjoint
      (P.get_filtered_media_log_events false true) ∧
    (P.get_filtered_media_log_events true false ++
      P.get_filtered_media_log_events false true).Perm P.media_log ∧
    (P.get_filtered_media_log_events true false).Sublist P.media_log ∧
    (P.get_filtered_media_log_events false true).Sublist P.media_log := by
  refine ⟨?_, ?_, ?_, ?_, ?_, ?_⟩
  · unfold Project.get_filtered_media_log_events
    rw [List.filter_congr (fun e _ => included_true_true e.starred)]
    exact List.filter_true P.media_log
  · unfold Project.get_filtered_media_log_events
    rw [List.filter_congr (fun e _ => included_false_false e.starred)]
    exact List.filter_false P.media_log
  · rw [filtered_true_false, filtered_false_true]
    intro e h1 h2
    have hs1 := (List.mem_filter.mp h1).2
    have hs2 := (List.mem_filter.mp h2).2
    simp at hs1 hs2
    exact absurd hs1 (by simp [hs2])
  · rw [filtered_true_false, filtered_false_true]
    exact List.filter_append_perm (fun e => e.starred) P.media_log
  · exact List.filter_sublist P.media_log
  · exact List.filter_sublist P.media_log

/-- C8: `delete_media_file_from_current_bin` removes the element at list
position `media_file.id` of the current bin's `file_ids` (the entries
before position `id` followed by those after it), and raises `IndexError`
(modelled as `none`) exactly when `media_file.id` is not a valid index. -/
theorem C8_delete_pops_by_position (P : Project) (media_file : MediaFile) :
    (media_file.id < P.currentBin.file_ids.length →
      P.delete_media_file_from_current_bin media_file =
        some (P.withCurrentBinFiles
          (P.currentBin.file_ids.take media_file.id ++
            P.currentBin.file_ids.drop (media_file.id + 1)))) ∧
    (P.currentBin.file_ids.length ≤ media_file.id →
      P.delete_media_file_from_current_bin media_file = none) := by
  constructor
  · intro h
    unfold Project.delete_media_file_from_current_bin popIdx Project.withCurrentBinFiles
    simp [h, List.eraseIdx_eq_take_drop_succ]
  · intro h
    unfold Project.delete_media_file_from_current_bin popIdx
    simp [Nat.not_lt.mpr h]

/-- A concrete project whose current bin holds ids `[5, 7]`. -/
def projBinDemo : Project :=
  { Project.init with
    bins := [{ name := "bin_1", file_ids := [5, 7] }] }

/-- C8 (witness): deleting a media file with id `0` from the bin `[5, 7]`
removes the element at position `0` (the value `5`), not an entry equal to
`0`; with id `2` the index is out of range and the call fails. -/
theorem C8_delete_pops_by_position_witness :
    projBinDemo.delete_media_file_from_current_bin { mfOrig with id := 0 } =
      some { projBinDemo with bins := [{ name := "bin_1", file_ids := [7] }] } ∧
    projBinDemo.delete_media_file_from_current_bin { mfOrig with id := 2 } = none := by
  constructor
  · have h := (C8_delete_pops_by_position projBinDemo { mfOrig with id := 0 }).1 (by decide)
    rw [h]
    rfl
  · exact (C8_delete_pops_by_position projBinDemo { mfOrig with id := 2 }).2 (by decide)

lemma existsLoop_iff (items : List (Nat × MediaFile)) (p : String) :
    mediaFileExistsLoop items p = true ↔
      ∃ kv, kv ∈ items ∧ kv.2.type ≠ MediaType.patternProducer ∧ kv.2.path = some p := by
  induction items with
  | nil => simp [mediaFileExistsLoop]
  | cons kv rest ih =>
    obtain ⟨k, mf⟩ := kv
    by_cases hpp : mf.type = MediaType.patternProducer
    · simp only [mediaFileExistsLoop, if_pos hpp, ih]
      constructor
      · rintro ⟨kv2, hmem, hX⟩
        exact ⟨kv2, List.mem_cons_of_mem _ hmem, hX⟩
      · rintro ⟨kv2, hmem, hty, hpath⟩
        rcases List.mem_cons.mp hmem with heq | hmem2
        · subst heq
          exact absurd hpp hty
        · exact ⟨kv2, hmem2, hty, hpath⟩
    · by_cases hpath : mf.path = some p
      · simp only [mediaFileExistsLoop, if_neg hpp, if_pos hpath]
        exact ⟨fun _ => ⟨(k, mf), List.mem_cons_self _ _, hpp, hpath⟩, fun _ => by trivial⟩
      · simp only [mediaFileExistsLoop, if_neg hpp, if_neg hpath, ih]
        constructor
        · rintro ⟨kv2, hmem, hX⟩
          exact ⟨kv2, List.mem_cons_of_mem _ hmem, hX⟩
        · rintro ⟨kv2, hmem, hty, hpath2⟩
          rcases List.mem_cons.mp hmem with heq | hmem2
          · subst heq
            exact absurd hpath2 hpath
          · exact ⟨kv2, hmem2, hty, hpath2⟩

lemma getLoop_isSome_eq (items : List (Nat × MediaFile)) (p : String) :
    (getMediaFileForPathLoop items p).isSome = mediaFileExistsLoop items p := by
  induction items with
  | nil => rfl
  | cons kv rest ih =>
    obtain ⟨k, mf⟩ := kv
    by_cases hpp : mf.type = MediaType.patternProducer
    · simp only [getMediaFileForPathLoop, mediaFileExistsLoop, if_pos hpp, ih]
    · by_cases hpath : mf.path = some p
      · simp only [getMediaFileForPathLoop, mediaFileExistsLoop, if_neg hpp, if_pos hpath,
          Option.isSome_some]
      · simp only [getMediaFileForPathLoop, mediaFileExistsLoop, if_neg hpp, if_neg hpath, ih]

lemma getLoop_some_spec (items : List (Nat × MediaFile)) (p : String) (mf : MediaFile)
    (h : getMediaFileForPathLoop items p = some mf) :
    mf.type ≠ MediaType.patternProducer ∧ mf.path = some p ∧ ∃ k, (k, mf) ∈ items := by
  induction items with
  | nil => exact absurd h (by simp [getMediaFileForPathLoop])
  | cons kv rest ih =>
    obtain ⟨k, mf2⟩ := kv
    by_cases hpp : mf2.type = MediaType.patternProducer
    · rw [getMediaFileForPathLoop, if_pos hpp] at h
      obtain ⟨hty, hpath, k2, hmem⟩ := ih h
      exact ⟨hty, hpath, k2, List.mem_cons_of_mem _ hmem⟩
    · by_cases hpath : mf2.path = some p
      · rw [getMediaFileForPathLoop, if_neg hpp, if_pos hpath] at h
        have heq : mf2 = mf := Option.some.inj h
        subst heq
        exact ⟨hpp, hpath, k, List.mem_cons_self _ _⟩
      · rw [getMediaFileForPathLoop, if_neg hpp, if_neg hpath] at h
        obtain ⟨hty, hpath2, k2, hmem⟩ := ih h
        exact ⟨hty, hpath2, k2, List.mem_cons_of_mem _ hmem⟩

/-- C9: `media_file_exists p` is true exactly when some stored media file
other than a pattern producer has path `p`; `get_media_file_for_path p`
returns a file exactly then, and any file it returns is a stored
non-pattern-producer file with path `p`.  Consequently, when the only
matches are pattern producers, the former returns false and the latter
`None`. -/
theorem C9_lookup_skips_pattern_producers (P : Project) (p : String) :
    (P.media_file_exists p = true ↔
      ∃ kv, kv ∈ P.media_files ∧ kv.2.type ≠ MediaType.patternProducer ∧
        kv.2.path = some p) ∧
    ((P.get_media_file_for_path p).isSome = P.media_file_exists p) ∧
    (∀ mf, P.get_media_file_for_path p = some mf →
      mf.type ≠ MediaType.patternProducer ∧ mf.path = some p ∧
        ∃ k, (k, mf) ∈ P.media_files) ∧
    ((∀ kv, kv ∈ P.media_files → kv.2.path = some p →
        kv.2.type = MediaType.patternProducer) →
      P.media_file_exists p = false ∧ P.get_media_file_for_path p = none) := by
  refine ⟨existsLoop_iff P.media_files p, getLoop_isSome_eq P.media_files p,
    fun mf h => getLoop_some_spec P.media_files p mf h, ?_⟩
  intro honly
  have hex : ¬ ∃ kv, kv ∈ P.media_files ∧ kv.2.type ≠ MediaType.patternProducer ∧
      kv.2.path = some p := by
    rintro ⟨kv, hmem, hty, hpath⟩
    exact hty (honly kv hmem hpath)
  have hfalse : P.media_file_exists p = false := by
    cases hcase : P.media_file_exists p
    · rfl
    · exact absurd ((existsLoop_iff P.media_files p).mp hcase) hex
  refine ⟨hfalse, ?_⟩
  have hsome : (getMediaFileForPathLoop P.media_files p).isSome = false :=
    (getLoop_isSome_eq P.media_files p).trans hfalse
  have hnone : getMediaFileForPathLoop P.media_files p = none := by
    cases hc : getMediaFileForPathLoop P.media_files p
    · rfl
    · rw [hc] at hsome
      simp at hsome
  exact hnone

/-- A concrete project whose table holds one pattern producer with path
`"/m/clip.mp4"` and one ordinary video file with path `"/m/vid.mp4"`. -/
def projLookupDemo : Project :=
  { Project.init with
    media_files :=
      [(0, { mfOrig with id := 0, path := some "/m/clip.mp4",
                         type := MediaType.patternProducer }),
       (1, { mfOrig with id := 1, path := some "/m/vid.mp4",
                         type := MediaType.video })] }

/-- C9 (witness): the pattern-producer-only path is not found, the video
path is. -/
theorem C9_lookup_skips_pattern_producers_witness :
    (projLookupDemo.media_file_exists "/m/clip.mp4" = false ∧
      projLookupDemo.get_media_file_for_path "/m/clip.mp4" = none) ∧
    projLookupDemo.media_file_exists "/m/vid.mp4" = true :=
  ⟨(C9_lookup_skips_pattern_producers projLookupDemo "/m/clip.mp4").2.2.2
      (by decide),
   (C9_lookup_skips_pattern_producers projLookupDemo "/m/vid.mp4").1.mpr
      ⟨(1, { mfOrig with id := 1, path := some "/m/vid.mp4", type := MediaType.video }),
        by decide, by decide, by decide⟩⟩

/-- C7: `write_image` writes the thumbnail to
`thumbnail_folder/md5(path).png` and `create_proxy_path` names the proxy
`render_folder/proxies/md5(path + width + height).extension`, so both
derived names are determined by the md5 hash of their inputs: sources whose
hashes agree get the same derived path, and in particular equal inputs
always yield equal derived paths. -/
theorem C7_derived_paths_content_addressed (env : Env) (p q : String) (w h : Nat)
    (ext : String) (mf mf2 : MediaFile) :
    (env.producer_is_valid p = true →
      ThumbnailThread.write_image env p =
        Except.ok (env.thumbnail_folder ++ "/" ++ env.md5Hex p ++ ".png",
          env.producer_get_length p)) ∧
    (mf.path = some p →
      mf.create_proxy_path env w h ext =
        some (env.render_folder ++ "/proxies/" ++
          env.md5Hex (p ++ toString w ++ toString h) ++ "." ++ ext)) ∧
    (env.md5Hex p = env.md5Hex q → thumbnailPath env p = thumbnailPath env q) ∧
    (mf.path = some p → mf2.path = some q →
      env.md5Hex (p ++ toString w ++ toString h) =
        env.md5Hex (q ++ toString w ++ toString h) →
      mf.create_proxy_path env w h ext = mf2.create_proxy_path env w h ext) := by
  refine ⟨?_, ?_, ?_, ?_⟩
  · intro hv
    unfold ThumbnailThread.write_image thumbnailPath
    simp [hv]
  · intro hp
    unfold MediaFile.create_proxy_path
    rw [hp]
    rfl
  · intro hmd
    unfold thumbnailPath
    rw [hmd]
  · intro hp hq hmd
    unfold MediaFile.create_proxy_path
    rw [hp, hq]
    simp [hmd]

/-- C7 (witness): the theorem applied at a concrete environment, path and
media file. -/
theorem C7_derived_paths_content_addressed_witness :
    ThumbnailThread.write_image envGood "/m/vid.mp4" =
      Except.ok (envGood.thumbnail_folder ++ "/" ++ envGood.md5Hex "/m/vid.mp4" ++ ".png",
        envGood.producer_get_length "/m/vid.mp4") ∧
    mfOrig.create_proxy_path envGood 640 360 "mp4" =
      some (envGood.render_folder ++ "/proxies/" ++
        envGood.md5Hex ("/media/b.mp4" ++ toString 640 ++ toString 360) ++ "." ++ "mp4") ∧
    thumbnailPath envGood "/m/vid.mp4" = thumbnailPath envGood "/m/vid.mp4" :=
  ⟨(C7_derived_paths_content_addressed envGood "/m/vid.mp4" "/m/vid.mp4" 640 360 "mp4"
      mfOrig mfOrig).1 rfl,
   (C7_derived_paths_content_addressed envGood "/media/b.mp4" "/media/b.mp4" 640 360 "mp4"
      mfOrig mfOrig).2.1 rfl,
   (C7_derived_paths_content_addressed envGood "/m/vid.mp4" "/m/vid.mp4" 640 360 "mp4"
      mfOrig mfOrig).2.2.1 rfl⟩

lemma deleteEventsRun_fst_sublist {α : Type} [DecidableEq α] (del log : List α) :
    (deleteEventsRun log del).1.Sublist log := by
  induction del generalizing log with
  | nil => exact List.Sublist.refl log
  | cons e rest ih =>
    simp only [deleteEventsRun, removeFirst]
    by_cases h : e ∈ log
    · rw [if_pos h]
      exact (ih (log.erase e)).trans (List.erase_sublist e log)
    · rw [if_neg h]

lemma deleteEventsRun_counts {α : Type} [DecidableEq α] (del log : List α)
    (h : ∀ e, del.count e ≤ log.count e) :
    (deleteEventsRun log del).2 = true ∧
    ∀ e, (deleteEventsRun log del).1.count e + del.count e = log.count e := by
  induction del generalizing log with
  | nil => exact ⟨rfl, fun e => by simp [deleteEventsRun]⟩
  | cons a rest ih =>
    have hpos : 0 < log.count a := by
      have ha := h a
      rw [List.count_cons_self] at ha
      exact Nat.lt_of_lt_of_le (Nat.succ_pos _) ha
    have hmem : a ∈ log := List.count_pos_iff.mp hpos
    have hrest : ∀ e, rest.count e ≤ (log.erase a).count e := by
      intro e
      by_cases he : e = a
      · subst he
        rw [List.count_erase_self]
        have ha := h e
        rw [List.count_cons_self] at ha
        exact Nat.le_sub_one_of_lt (Nat.lt_of_succ_le ha)
      · rw [List.count_erase_of_ne he]
        have ha := h e
        rw [List.count_cons_of_ne he] at ha
        exact ha
    obtain ⟨hok, hcount⟩ := ih (log.erase a) hrest
    have hstep : deleteEventsRun log (a :: rest) = deleteEventsRun (log.erase a) rest := by
      simp only [deleteEventsRun, removeFirst, if_pos hmem]
    refine ⟨hstep ▸ hok, fun e => ?_⟩
    rw [hstep]
    by_cases he : e = a
    · subst he
      rw [List.count_cons_self]
      have hc := hcount e
      rw [List.count_erase_self] at hc
      omega
    · rw [List.count_cons_of_ne he]
      have hc := hcount e
      rw [List.count_erase_of_ne he] at hc
      exact hc

/-- C5: when every event of `delete_events` occurs in `media_log` with at
least its multiplicity in `delete_events`, `delete_media_log_events`
completes without error and removes exactly those events: the surviving log
is a sublist of the original (original relative order) and, counted with
multiplicity, surviving plus deleted equals original for every event. -/
theorem C5_delete_removes_exactly (P : Project) (delete_events : List MediaLogEvent)
    (h : ∀ e, delete_events.count e ≤ P.media_log.count e) :
    (P.delete_media_log_events delete_events).2 = true ∧
    (P.delete_media_log_events delete_events).1.media_log.Sublist P.media_log ∧
    ∀ e, (P.delete_media_log_events delete_events).1.media_log.count e +
        delete_events.count e = P.media_log.count e := by
  obtain ⟨hok, hcount⟩ := deleteEventsRun_counts delete_events P.media_log h
  exact ⟨hok, deleteEventsRun_fst_sublist delete_events P.media_log, hcount⟩

/-- A concrete project whose media log is
`[starred 0, unstarred 1, starred 0, unstarred 2]`. -/
def projLogDemo : Project :=
  { Project.init with
    media_log := [⟨true, 0⟩, ⟨false, 1⟩, ⟨true, 0⟩, ⟨false, 2⟩] }

lemma projLogDemo_del_le : ∀ e : MediaLogEvent,
    List.count e [(⟨true, 0⟩ : MediaLogEvent), ⟨false, 2⟩] ≤
      projLogDemo.media_log.count e := by
  intro e
  by_cases h1 : e = (⟨true, 0⟩ : MediaLogEvent)
  · subst h1
    decide
  · by_cases h2 : e = (⟨false, 2⟩ : MediaLogEvent)
    · subst h2
      decide
    · have hz : List.count e [(⟨true, 0⟩ : MediaLogEvent), ⟨false, 2⟩] = 0 := by
        rw [List.count_eq_zero]
        simp [h1, h2]
      rw [hz]
      exact Nat.zero_le _

/-- C5 (witness): deleting `[starred 0, unstarred 2]` from the demo log
succeeds, the survivors keep their order, and the multiplicity equation
holds at the event `starred 0`. -/
theorem C5_delete_removes_exactly_witness :
    (projLogDemo.delete_media_log_events [⟨true, 0⟩, ⟨false, 2⟩]).2 = true ∧
    (projLogDemo.delete_media_log_events
        [⟨true, 0⟩, ⟨false, 2⟩]).1.media_log.Sublist projLogDemo.media_log ∧
    (projLogDemo.delete_media_log_events
          [⟨true, 0⟩, ⟨false, 2⟩]).1.media_log.count ⟨true, 0⟩ +
        List.count ⟨true, 0⟩ [(⟨true, 0⟩ : MediaLogEvent), ⟨false, 2⟩] =
      projLogDemo.media_log.count ⟨true, 0⟩ :=
  ⟨(C5_delete_removes_exactly projLogDemo [⟨true, 0⟩, ⟨false, 2⟩] projLogDemo_del_le).1,
   (C5_delete_removes_exactly projLogDemo [⟨true, 0⟩, ⟨false, 2⟩] projLogDemo_del_le).2.1,
   (C5_delete_removes_exactly projLogDemo [⟨true, 0⟩, ⟨false, 2⟩] projLogDemo_del_le).2.2
     ⟨true, 0⟩⟩

/-- The media-file table's ids in insertion order. -/
def mediaIds (P : Project) : List Nat := P.media_files.map Prod.fst

/-- Invariant for C1: the stored ids are strictly increasing in insertion
order and all lie below `next_media_file_id`. -/
def IdInv (P : Project) : Prop :=
  (mediaIds P).Pairwise (· < ·) ∧ ∀ k ∈ mediaIds P, k < P.next_media_file_id

lemma dictInsert_fresh (m : List (Nat × MediaFile)) (k : Nat) (v : MediaFile)
    (h : ∀ kv ∈ m, kv.1 ≠ k) : dictInsert m k v = m ++ [(k, v)] := by
  unfold dictInsert
  rw [if_neg]
  intro hany
  rw [List.any_eq_true] at hany
  obtain ⟨kv, hmem, hp⟩ := hany
  exact h kv hmem (by simpa using hp)

lemma addMediaObject_IdInv (P : Project) (mo : MediaFile)
    (hid : mo.id = P.next_media_file_id) (h : IdInv P) :
    IdInv (P.addMediaObject mo) := by
  obtain ⟨hpw, hbound⟩ := h
  have hfresh : ∀ kv ∈ P.media_files, kv.1 ≠ mo.id := by
    intro kv hmem
    have hlt := hbound kv.1 (List.mem_map_of_mem Prod.fst hmem)
    omega
  have hins : dictInsert P.media_files mo.id mo = P.media_files ++ [(mo.id, mo)] :=
    dictInsert_fresh _ _ _ hfresh
  have hmap : mediaIds (P.addMediaObject mo) = mediaIds P ++ [mo.id] := by
    simp only [mediaIds, Project.addMediaObject, hins, List.map_append, List.map_cons,
      List.map_nil]
  constructor
  · rw [hmap, List.pairwise_append]
    refine ⟨hpw, List.pairwise_singleton _ _, ?_⟩
    intro a ha b hb
    have hb2 : b = mo.id := by simpa using hb
    have hlt := hbound a ha
    omega
  · intro j hj
    rw [hmap] at hj
    have hnext : (P.addMediaObject mo).next_media_file_id = P.next_media_file_id + 1 := rfl
    rw [hnext]
    rcases List.mem_append.mp hj with hj1 | hj2
    · have := hbound j hj1
      omega
    · have : j = mo.id := by simpa using hj2
      omega

lemma make_id (env : Env) (id : Nat) (file_path name : String) (media_type : MediaType)
    (length : Int) (icon_path : String) :
    (MediaFile.make env id file_path name media_type length icon_path).id = id := by
  by_cases hg : env.file_extension_is_graphics_file (splitext name).2 = true
  · simp [MediaFile.make, hg]
  · simp [MediaFile.make, hg]

lemma step_shape (env : Env) (P : Project) (op : Op) :
    (∃ mo : MediaFile, mo.id = P.next_media_file_id ∧
        step env P op = P.addMediaObject mo) ∨
    ((step env P op).media_files = P.media_files ∧
      (step env P op).next_media_file_id = P.next_media_file_id ∧
      (step env P op).c_bin = P.c_bin ∧
      (step env P op).c_seq = P.c_seq ∧
      P.bins.length ≤ (step env P op).bins.length ∧
      P.sequences.length ≤ (step env P op).sequences.length) := by
  cases op with
  | addMediaFile fp =>
    by_cases hmt : env.get_media_type fp = MediaType.audio
    · left
      refine ⟨MediaFile.make env P.next_media_file_id fp (pathSplitTail fp)
        (env.get_media_type fp) (env.producer_get_length fp)
        (env.image_path ++ "audio_file.png"), make_id env _ fp _ _ _ _, ?_⟩
      simp [step, Project.add_media_file, ThumbnailThread.get_file_length, hmt]
    · by_cases hv : env.producer_is_valid fp = false
      · right
        have hstep : step env P (Op.addMediaFile fp) = P := by
          simp [step, Project.add_media_file, ThumbnailThread.write_image, hmt, hv]
        rw [hstep]
        exact ⟨rfl, rfl, rfl, rfl, Nat.le_refl _, Nat.le_refl _⟩
      · left
        refine ⟨MediaFile.make env P.next_media_file_id fp (pathSplitTail fp)
          (env.get_media_type fp) (env.producer_get_length fp) (thumbnailPath env fp),
          make_id env _ fp _ _ _ _, ?_⟩
        simp [step, Project.add_media_file, ThumbnailThread.write_image, hmt, hv,
          thumbnailPath]
  | addPatternProducer mo =>
    left
    exact ⟨{ mo with id := P.next_media_file_id }, rfl, rfl⟩
  | addUnnamedBin =>
    right
    refine ⟨rfl, rfl, rfl, rfl, ?_, Nat.le_refl _⟩
    simp [step, Project.add_unnamed_bin]
  | addUnnamedSequence =>
    right
    refine ⟨rfl, rfl, rfl, rfl, Nat.le_refl _, ?_⟩
    simp [step, Project.add_unnamed_sequence, Project.add_named_sequence]
  | addNamedSequence n =>
    right
    refine ⟨rfl, rfl, rfl, rfl, Nat.le_refl _, ?_⟩
    simp [step, Project.add_named_sequence]
  | deleteMediaFileFromCurrentBin mf =>
    right
    cases hd : P.delete_media_file_from_current_bin mf with
    | none =>
      have hstep : step env P (Op.deleteMediaFileFromCurrentBin mf) = P := by
        simp [step, hd]
      rw [hstep]
      exact ⟨rfl, rfl, rfl, rfl, Nat.le_refl _, Nat.le_refl _⟩
    | some P2 =>
      have hstep : step env P (Op.deleteMediaFileFromCurrentBin mf) = P2 := by
        simp [step, hd]
      rw [hstep]
      unfold Project.delete_media_file_from_current_bin at hd
      cases hp : popIdx P.currentBin.file_ids mf.id with
      | none =>
        rw [hp] at hd
        exact absurd hd (by simp)
      | some l =>
        rw [hp] at hd
        have heq : P2 = P.withCurrentBinFiles l := (Option.some.inj hd).symm
        subst heq
        refine ⟨rfl, rfl, rfl, rfl, ?_, Nat.le_refl _⟩
        show P.bins.length ≤ (P.bins.set P.c_bin _).length
        rw [List.length_set]
  | deleteMediaLogEvents del =>
    right
    exact ⟨rfl, rfl, rfl, rfl, Nat.le_refl _, Nat.le_refl _⟩

lemma step_IdInv (env : Env) (P : Project) (op : Op) (h : IdInv P) :
    IdInv (step env P op) := by
  rcases step_shape env P op with ⟨mo, hid, hstep⟩ | ⟨hm, hn, _⟩
  · rw [hstep]
    exact addMediaObject_IdInv P mo hid h
  · have hmi : mediaIds (step env P op) = mediaIds P := by
      unfold mediaIds
      rw [hm]
    constructor
    · rw [hmi]
      exact h.1
    · intro k hk
      rw [hmi] at hk
      rw [hn]
      exact h.2 k hk

lemma foldl_IdInv (env : Env) (ops : List Op) :
    ∀ P : Project, IdInv P → IdInv (ops.foldl (step env) P) := by
  induction ops with
  | nil => exact fun P h => h
  | cons op rest ih => exact fun P h => ih _ (step_IdInv env P op h)

lemma IdInv_init : IdInv Project.init := by
  constructor
  · simp [mediaIds, Project.init, Project.add_unnamed_sequence, Project.add_named_sequence,
      Project.add_unnamed_bin]
  · intro k hk
    simp [mediaIds, Project.init, Project.add_unnamed_sequence, Project.add_named_sequence,
      Project.add_unnamed_bin] at hk

/-- C1: along every trace of add/delete operations from a fresh project,
the ids stored as keys of the media-file table are strictly increasing in
insertion order — each newly added id exceeds every id added before it —
and hence pairwise distinct. -/
theorem C1_media_ids_strictly_increasing (env : Env) (ops : List Op) :
    (mediaIds (runOps env ops)).Pairwise (· < ·) ∧ (mediaIds (runOps env ops)).Nodup := by
  have hinv : IdInv (runOps env ops) := foldl_IdInv env ops Project.init IdInv_init
  exact ⟨hinv.1, hinv.1.imp (fun hab => Nat.ne_of_lt hab)⟩

/-- The sequence currently referenced by `self.c_seq` (index model). -/
def Project.currentSeq (P : Project) : Sequence :=
  P.sequences.getD P.c_seq { name := "" }

/-- Invariant for C6: the current-bin and current-sequence indices are
valid. -/
def CurInv (P : Project) : Prop :=
  P.c_bin < P.bins.length ∧ P.c_seq < P.sequences.length

lemma getD_mem_of_lt {α : Type} (l : List α) (i : Nat) (d : α) (h : i < l.length) :
    l.getD i d ∈ l := by
  rw [List.getD_eq_getElem?_getD, List.getElem?_eq_getElem h]
  exact List.getElem_mem h

lemma step_CurInv (env : Env) (P : Project) (op : Op) (h : CurInv P) :
    CurInv (step env P op) := by
  rcases step_shape env P op with ⟨mo, _, hstep⟩ | ⟨_, _, hb, hs, hbl, hsl⟩
  · rw [hstep]
    refine ⟨?_, h.2⟩
    show P.c_bin < (P.bins.set P.c_bin _).length
    rw [List.length_set]
    exact h.1
  · exact ⟨hb ▸ Nat.lt_of_lt_of_le h.1 hbl, hs ▸ Nat.lt_of_lt_of_le h.2 hsl⟩

lemma foldl_CurInv (env : Env) (ops : List Op) :
    ∀ P : Project, CurInv P → CurInv (ops.foldl (step env) P) := by
  induction ops with
  | nil => exact fun P h => h
  | cons op rest ih => exact fun P h => ih _ (step_CurInv env P op h)

lemma CurInv_init : CurInv Project.init := by
  constructor
  · simp [Project.init, Project.add_unnamed_sequence, Project.add_named_sequence,
      Project.add_unnamed_bin]
  · simp [Project.init, Project.add_unnamed_sequence, Project.add_named_sequence,
      Project.add_unnamed_bin]

/-- C6: after construction and any trace of the add/delete operations, the
current-bin and current-sequence references are valid and denote elements
of the project's own `bins` and `sequences` lists. -/
theorem C6_current_bin_and_seq_selected (env : Env) (ops : List Op) :
    (runOps env ops).c_bin < (runOps env ops).bins.length ∧
    (runOps env ops).c_seq < (runOps env ops).sequences.length ∧
    (runOps env ops).currentBin ∈ (runOps env ops).bins ∧
    (runOps env ops).currentSeq ∈ (runOps env ops).sequences := by
  have hinv : CurInv (runOps env ops) := foldl_CurInv env ops Project.init CurInv_init
  exact ⟨hinv.1, hinv.2, getD_mem_of_lt _ _ _ hinv.1, getD_mem_of_lt _ _ _ hinv.2⟩

end Flowblade
